import Mathlib

/-!
Shallow embedding of the `apenasweber/Multimodal` Async Tasks API scaffold and
of the task-submission-and-lifecycle core its specification describes.

Sections:
* `Models`     — `src/app/infrastructure/models.py` (the `TaskStatus` enum)
* `Http`       — `src/app/interfaces/http.py` (Pydantic shapes and the handler)
* `Worker`     — `src/app/interfaces/worker.py` (Celery bootstrap)
* `Migrations` — `migrations/env.py` (`get_database_url`)
* `Core`       — the lifecycle core, modelled from the spec (no implementation
  exists in the sources)
-/

namespace Models

/-- Embeds `TaskStatus(str, enum.Enum)` from
`src/app/infrastructure/models.py`: the four members PENDING, PROCESSING,
COMPLETED, FAILED. -/
inductive TaskStatus where
  | PENDING
  | PROCESSING
  | COMPLETED
  | FAILED
deriving DecidableEq, Repr

/-- The string value each enum member carries (`PENDING = "PENDING"`, ...). -/
def TaskStatus.value : TaskStatus → String
  | .PENDING => "PENDING"
  | .PROCESSING => "PROCESSING"
  | .COMPLETED => "COMPLETED"
  | .FAILED => "FAILED"

end Models

namespace Http

/-- Embeds the Pydantic model `TaskCreateIn` from
`src/app/interfaces/http.py`: `text: str`, `language: str = "en"`. -/
structure TaskCreateIn where
  text : String
  language : String := "en"
deriving DecidableEq, Repr

/-- Embeds the Pydantic model `TaskOut` from `src/app/interfaces/http.py`:
required string fields `task_id`, `status`, `queued_at`; optional fields
`started_at`, `finished_at`, `result_url`, `error` defaulting to `None`. -/
structure TaskOut where
  task_id : String
  status : String
  queued_at : String
  started_at : Option String := none
  finished_at : Option String := none
  result_url : Option String := none
  error : Option String := none
deriving DecidableEq, Repr

/-- A Pydantic field declaration as it appears on a model: its name, whether
it is required, and its declared default when it has one (`some none` is a
declared default of `None`). -/
structure FieldDecl where
  name : String
  required : Bool
  default : Option (Option String)
deriving DecidableEq, Repr

/-- The field declarations of `TaskOut`, in source order: three required
`str` fields with no default, four `str | None` fields defaulting to `None`. -/
def TaskOut.model_fields : List FieldDecl :=
  [ { name := "task_id", required := true, default := none }
  , { name := "status", required := true, default := none }
  , { name := "queued_at", required := true, default := none }
  , { name := "started_at", required := false, default := some none }
  , { name := "finished_at", required := false, default := some none }
  , { name := "result_url", required := false, default := some none }
  , { name := "error", required := false, default := some none } ]

/-- Pydantic validation of a request body against `TaskCreateIn`: `text` has
no default, so a body without it is rejected; `language` falls back to its
declared default `"en"`. -/
def TaskCreateIn.parse (body : List (String × String)) :
    Except String TaskCreateIn :=
  match body.lookup "text" with
  | none => Except.error "text: field required"
  | some t => Except.ok { text := t, language := (body.lookup "language").getD "en" }

/-- Embeds FastAPI's `HTTPException(status_code, detail)`. -/
structure HTTPException where
  status_code : Nat
  detail : String
deriving DecidableEq, Repr

/-- The route declaration on `submit_task`:
`@router.post("/", response_model=TaskOut, status_code=201)`, mounted at
prefix `/tasks` by `src/app/main.py`. -/
structure RouteDecl where
  method : String
  path : String
  status_code : Nat
deriving DecidableEq, Repr

/-- The declared route of `submit_task`. -/
def submit_task_route : RouteDecl :=
  { method := "POST", path := "/tasks/", status_code := 201 }

/-- Embeds the handler `submit_task` from `src/app/interfaces/http.py`: for
any payload and any (possibly absent) `idempotency_key` header it raises
`HTTPException(501, "Not implemented yet")`. -/
def submit_task (payload : TaskCreateIn) (idempotency_key : Option String) :
    Except HTTPException TaskOut :=
  Except.error { status_code := 501, detail := "Not implemented yet" }

end Http

namespace Worker

/-- Embeds `Celery("tasks_api", broker=..., backend=...)`: the constructed
application records its main name and the broker/backend URLs it was given
(`os.getenv` returns `None` when the variable is unset). -/
structure Celery where
  main : String
  broker : Option String
  backend : Option String
deriving DecidableEq, Repr

/-- Embeds the module body of `src/app/interfaces/worker.py`: the single
module-level `celery_app`, built from the environment (`getenv`) with
`broker_url = os.getenv("CELERY_BROKER_URL")` and
`backend_url = os.getenv("CELERY_BACKEND_URL")`. -/
def celery_app (getenv : String → Option String) : Celery :=
  { main := "tasks_api"
  , broker := getenv "CELERY_BROKER_URL"
  , backend := getenv "CELERY_BACKEND_URL" }

/-- Where a worker bootstrap gets its broker URL from. -/
inductive BrokerSource where
  | hardcoded (url : String)
  | fromEnv (var : String)
deriving DecidableEq, Repr

/-- A worker-bootstrap definition, reduced to how it configures the broker. -/
structure WorkerBootstrap where
  broker : BrokerSource
deriving DecidableEq, Repr

/-- The bootstrap in `src/app/interfaces/worker.py`: broker derived from the
environment variable `CELERY_BROKER_URL`. -/
def envBootstrap : WorkerBootstrap :=
  { broker := BrokerSource.fromEnv "CELERY_BROKER_URL" }

/-- Modelled from the spec: the scaffold's second worker-bootstrap definition
("two conflicting worker bootstraps", "hardcoded broker vs.
environment-derived broker"); the file holding it is not among the provided
sources, so only its broker configuration — a hardcoded URL — is modelled. -/
def hardcodedBootstrap (url : String) : WorkerBootstrap :=
  { broker := BrokerSource.hardcoded url }

/-- The scaffold's worker-bootstrap definitions: the hardcoded-broker one
(modelled from the spec, with its unknown literal URL as a parameter) and the
environment-derived one from `worker.py`. -/
def workerBootstraps (url : String) : List WorkerBootstrap :=
  [hardcodedBootstrap url, envBootstrap]

end Worker

namespace Migrations

/-- Python truthiness-based `a or b` restricted to optional strings: `None`
and `""` are falsy, so they select `b`; any other string is returned as-is. -/
def pyOr (a b : Option String) : Option String :=
  match a with
  | none => b
  | some s => if s = "" then b else some s

/-- Embeds `get_database_url` from `migrations/env.py`:
`os.getenv("DATABASE_URL") or config.get_main_option("sqlalchemy.url")`. -/
def get_database_url (getenv : String → Option String)
    (get_main_option : String → Option String) : Option String :=
  pyOr (getenv "DATABASE_URL") (get_main_option "sqlalchemy.url")

end Migrations

/-- C2: every value of the task status type is one of the four declared
statuses PENDING, PROCESSING, COMPLETED, FAILED, and the four members carry
exactly those four distinct string values. -/
theorem taskStatus_exactly_four (s : Models.TaskStatus) :
    (s = Models.TaskStatus.PENDING ∨ s = Models.TaskStatus.PROCESSING ∨
      s = Models.TaskStatus.COMPLETED ∨ s = Models.TaskStatus.FAILED) ∧
    (Models.TaskStatus.PENDING.value = "PENDING" ∧
      Models.TaskStatus.PROCESSING.value = "PROCESSING" ∧
      Models.TaskStatus.COMPLETED.value = "COMPLETED" ∧
      Models.TaskStatus.FAILED.value = "FAILED") := by
  refine ⟨?_, by decide⟩
  cases s <;> simp

/-- C1: for every payload and every optional idempotency-key header, the
handler `submit_task` raises HTTP 501 "Not implemented yet" and never
returns a `TaskOut` response, even though the route declares status 201. -/
theorem submit_task_always_501 (payload : Http.TaskCreateIn)
    (idempotency_key : Option String) :
    Http.submit_task payload idempotency_key =
      Except.error { status_code := 501, detail := "Not implemented yet" } ∧
    (∀ out : Http.TaskOut,
      Http.submit_task payload idempotency_key ≠ Except.ok out) ∧
    Http.submit_task_route.status_code = 201 := by
  refine ⟨rfl, ?_, rfl⟩
  intro out h
  simp [Http.submit_task] at h

/-- C7: the worker bootstrap constructs a single module-level Celery app
named "tasks_api" whose broker and backend URLs are read from the
environment variables CELERY_BROKER_URL and CELERY_BACKEND_URL. -/
theorem celery_app_from_env (getenv : String → Option String) :
    (Worker.celery_app getenv).main = "tasks_api" ∧
    (Worker.celery_app getenv).broker = getenv "CELERY_BROKER_URL" ∧
    (Worker.celery_app getenv).backend = getenv "CELERY_BACKEND_URL" :=
  ⟨rfl, rfl, rfl⟩

/-- C8: `TaskOut` declares exactly the fields `task_id`, `status`,
`queued_at` (required, no default) and `started_at`, `finished_at`,
`result_url`, `error` (optional, defaulting to null), in that order. -/
theorem taskOut_field_shape :
    Http.TaskOut.model_fields =
      [ ⟨"task_id", true, none⟩, ⟨"status", true, none⟩
      , ⟨"queued_at", true, none⟩, ⟨"started_at", false, some none⟩
      , ⟨"finished_at", false, some none⟩, ⟨"result_url", false, some none⟩
      , ⟨"error", false, some none⟩ ] := by
  decide

/-- C9: `get_database_url` returns the value of DATABASE_URL whenever that
variable is set to a non-empty string; when it is unset or empty, it returns
the configuration file's `sqlalchemy.url` option instead. -/
theorem get_database_url_env_over_ini (getenv get_main_option : String → Option String) :
    (∀ s, getenv "DATABASE_URL" = some s → s ≠ "" →
      Migrations.get_database_url getenv get_main_option = some s) ∧
    ((getenv "DATABASE_URL" = none ∨ getenv "DATABASE_URL" = some "") →
      Migrations.get_database_url getenv get_main_option =
        get_main_option "sqlalchemy.url") := by
  constructor
  · intro s hs hne
    simp [Migrations.get_database_url, Migrations.pyOr, hs, hne]
  · rintro (h | h) <;> simp [Migrations.get_database_url, Migrations.pyOr, h]

/-- C9 witness: at a concrete environment and configuration, a set non-empty
DATABASE_URL wins and an unset one falls back to the ini option. -/
theorem get_database_url_env_over_ini_witness :
    Migrations.get_database_url
      (fun v => if v = "DATABASE_URL" then some "postgres://db" else none)
      (fun _ => some "sqlite://ini") = some "postgres://db" ∧
    Migrations.get_database_url (fun _ => none)
      (fun _ => some "sqlite://ini") = some "sqlite://ini" :=
  ⟨(get_database_url_env_over_ini
      (fun v => if v = "DATABASE_URL" then some "postgres://db" else none)
      (fun _ => some "sqlite://ini")).1 "postgres://db" rfl (by decide),
   (get_database_url_env_over_ini (fun _ => none)
      (fun _ => some "sqlite://ini")).2 (Or.inl rfl)⟩

/-- C10: a request body supplying "text" but omitting "language" parses to a
`TaskCreateIn` with language "en"; a body omitting "text" is rejected. -/
theorem taskCreateIn_language_default (body : List (String × String)) :
    (∀ t, body.lookup "text" = some t → body.lookup "language" = none →
      Http.TaskCreateIn.parse body = Except.ok { text := t, language := "en" }) ∧
    (body.lookup "text" = none →
      Http.TaskCreateIn.parse body = Except.error "text: field required") := by
  constructor
  · intro t ht hl
    simp [Http.TaskCreateIn.parse, ht, hl]
  · intro h
    simp [Http.TaskCreateIn.parse, h]

/-- C10 witness: concrete bodies with and without the "text" field. -/
theorem taskCreateIn_language_default_witness :
    Http.TaskCreateIn.parse [("text", "hello")] =
      Except.ok { text := "hello", language := "en" } ∧
    Http.TaskCreateIn.parse [("other", "x")] =
      Except.error "text: field required" :=
  ⟨(taskCreateIn_language_default [("text", "hello")]).1 "hello" rfl rfl,
   (taskCreateIn_language_default [("other", "x")]).2 rfl⟩

/-- C3: the scaffold holds two conflicting worker-bootstrap definitions —
one configuring the broker with a hardcoded URL (modelled from the spec) and
one deriving the broker URL from the environment (from `worker.py`); their
broker configurations differ for every hardcoded URL. -/
theorem two_conflicting_worker_bootstraps (url : String) :
    (Worker.workerBootstraps url).length = 2 ∧
    Worker.workerBootstraps url =
      [ { broker := Worker.BrokerSource.hardcoded url }
      , { broker := Worker.BrokerSource.fromEnv "CELERY_BROKER_URL" } ] ∧
    (Worker.hardcodedBootstrap url).broker ≠ Worker.envBootstrap.broker := by
  refine ⟨rfl, rfl, ?_⟩
  simp [Worker.hardcodedBootstrap, Worker.envBootstrap]

namespace Core

open Models

/-- Modelled from the spec (§3 Data Model): the Task record — identity,
payload, status, optional result reference and error message, and the
queued/started/finished timestamps, each absent until set. No implementation
of the Task record exists in the sources. -/
structure Task where
  task_id : String
  payload : String
  status : TaskStatus
  result : Option String := none
  error : Option String := none
  queued_at : Option Nat := none
  started_at : Option Nat := none
  finished_at : Option Nat := none
deriving DecidableEq, Repr

/-- Modelled from the spec (§7 taxonomy): the two error kinds the Task Store
raises — `NotFound` (task id unknown) and `Conflict` (duplicate id, or
transition precondition failed). -/
inductive CoreError where
  | NotFound
  | Conflict
deriving DecidableEq, Repr

/-- Modelled from the spec (§2, §3): the shared durable state — the Task
Store (id to record), the Idempotency Index (key to task id), and the work
queue of pending task ids. -/
structure CoreState where
  tasks : List (String × Task)
  index : List (String × String)
  queue : List String
deriving DecidableEq, Repr

/-- The state with no tasks, no idempotency records and an empty queue. -/
def CoreState.empty : CoreState :=
  { tasks := [], index := [], queue := [] }

/-- Modelled from the spec (§4.1): the optional field updates handed to
`transition` — result, error, and the started/finished timestamps. -/
structure TransitionFields where
  result : Option String := none
  error : Option String := none
  started_at : Option Nat := none
  finished_at : Option Nat := none
deriving DecidableEq, Repr

/-- Applies a `transition`'s status change and field updates to a task:
fields present in the update replace the stored ones, absent fields are
kept. -/
def applyFields (t : Task) (to_status : TaskStatus) (f : TransitionFields) : Task :=
  { t with
    status := to_status
    result := match f.result with | some r => some r | none => t.result
    error := match f.error with | some e => some e | none => t.error
    started_at := match f.started_at with | some n => some n | none => t.started_at
    finished_at := match f.finished_at with | some n => some n | none => t.finished_at }

/-- Replaces the record stored under `id`, leaving every other key's record
untouched; a no-op when `id` is absent. -/
def updateTask : List (String × Task) → String → Task → List (String × Task)
  | [], _, _ => []
  | (k, v) :: rest, id, t =>
    if k = id then (k, t) :: rest else (k, v) :: updateTask rest id t

/-- Modelled from the spec (§4.1): `create(task_id, payload)` fails with
`Conflict` if the id already exists, otherwise records a new PENDING task
with `queued_at` set to the current time. -/
def create (s : CoreState) (task_id payload : String) (now : Nat) :
    Except CoreError CoreState :=
  match s.tasks.lookup task_id with
  | some _ => Except.error CoreError.Conflict
  | none => Except.ok { s with tasks :=
      (task_id,
        { task_id := task_id, payload := payload, status := TaskStatus.PENDING
        , queued_at := some now }) :: s.tasks }

/-- Modelled from the spec (§4.1): `get(task_id)` fails with `NotFound` when
the id is absent. -/
def get (s : CoreState) (task_id : String) : Except CoreError Task :=
  match s.tasks.lookup task_id with
  | none => Except.error CoreError.NotFound
  | some t => Except.ok t

/-- Modelled from the spec (§4.1): `transition(task_id, from_status,
to_status, fields)` updates status and the given fields only if the current
status equals `from_status`, failing with `Conflict` otherwise; an unknown
id is `NotFound` (§7). -/
def transition (s : CoreState) (task_id : String)
    (from_status to_status : TaskStatus) (fields : TransitionFields) :
    Except CoreError CoreState :=
  match s.tasks.lookup task_id with
  | none => Except.error CoreError.NotFound
  | some t =>
    if t.status = from_status then
      Except.ok { s with
        tasks := updateTask s.tasks task_id (applyFields t to_status fields) }
    else Except.error CoreError.Conflict

/-- Modelled from the spec (§4.2): `reserve(key, task_id)` inserts the
mapping if the key is unseen and reports whether this call inserted it. -/
def reserve (s : CoreState) (key task_id : String) : Bool × CoreState :=
  match s.index.lookup key with
  | some _ => (false, s)
  | none => (true, { s with index := (key, task_id) :: s.index })

/-- Modelled from the spec (§4.2): `lookup(key)` returns the task id the key
maps to, when any. -/
def lookupKey (s : CoreState) (key : String) : Option String :=
  s.index.lookup key

/-- Modelled from the spec (§4.3): `enqueue(task_id)` appends a delivery
notice to the work queue. -/
def enqueue (s : CoreState) (task_id : String) : CoreState :=
  { s with queue := s.queue ++ [task_id] }

/-- Modelled from the spec (§4.5 submission algorithm): look the key up and
return the existing task's state when present; otherwise create the task
under the caller-supplied fresh id, reserve the key (falling back to the
winning task when the reservation is lost), and enqueue. Id generation and
the clock are external, so `newId` and `now` are parameters. -/
def submit (s : CoreState) (key payload newId : String) (now : Nat) :
    Except CoreError (String × TaskStatus × CoreState) :=
  match lookupKey s key with
  | some tid =>
    match s.tasks.lookup tid with
    | some t => Except.ok (tid, t.status, s)
    | none => Except.error CoreError.NotFound
  | none =>
    match create s newId payload now with
    | Except.error e => Except.error e
    | Except.ok s1 =>
      match reserve s1 key newId with
      | (true, s2) => Except.ok (newId, TaskStatus.PENDING, enqueue s2 newId)
      | (false, s2) =>
        match lookupKey s2 key with
        | some tid =>
          match s2.tasks.lookup tid with
          | some t => Except.ok (tid, t.status, s2)
          | none => Except.error CoreError.NotFound
        | none => Except.error CoreError.NotFound

/-- Modelled from the spec (§4.4): `claim(task_id)` attempts
`transition(task_id, PENDING, PROCESSING, \x7bstarted_at: now\x7d)` and reports
false, leaving the state unchanged, when the transition is refused. -/
def claim (s : CoreState) (task_id : String) (now : Nat) : Bool × CoreState :=
  match transition s task_id TaskStatus.PENDING TaskStatus.PROCESSING
      { started_at := some now } with
  | Except.ok s' => (true, s')
  | Except.error _ => (false, s)

/-- Modelled from the spec (§4.4): `complete(task_id, result)` is
`transition(task_id, PROCESSING, COMPLETED, \x7bfinished_at: now, result\x7d)`. -/
def complete (s : CoreState) (task_id result : String) (now : Nat) :
    Except CoreError CoreState :=
  transition s task_id TaskStatus.PROCESSING TaskStatus.COMPLETED
    { result := some result, finished_at := some now }

/-- Modelled from the spec (§4.4): `fail(task_id, error)` is
`transition(task_id, PROCESSING, FAILED, \x7bfinished_at: now, error\x7d)`. -/
def fail (s : CoreState) (task_id error : String) (now : Nat) :
    Except CoreError CoreState :=
  transition s task_id TaskStatus.PROCESSING TaskStatus.FAILED
    { error := some error, finished_at := some now }

/-- Modelled from the spec (§4.4, §4.5): the operations this core performs
against the shared state — submission, claim, completion and failure
reporting. -/
inductive Op where
  | submit (key payload newId : String) (now : Nat)
  | claim (task_id : String) (now : Nat)
  | complete (task_id result : String) (now : Nat)
  | fail (task_id error : String) (now : Nat)
deriving DecidableEq, Repr

/-- One core operation applied to the state; refused operations leave the
state unchanged. -/
def step (s : CoreState) : Op → CoreState
  | Op.submit key payload newId now =>
    match submit s key payload newId now with
    | Except.ok (_, _, s') => s'
    | Except.error _ => s
  | Op.claim tid now => (claim s tid now).2
  | Op.complete tid r now =>
    match complete s tid r now with
    | Except.ok s' => s'
    | Except.error _ => s
  | Op.fail tid e now =>
    match fail s tid e now with
    | Except.ok s' => s'
    | Except.error _ => s

/-- The status a task currently carries, `none` before creation. -/
def statusOf (s : CoreState) (task_id : String) : Option TaskStatus :=
  (s.tasks.lookup task_id).map Task.status

/-- The task's status after each prefix of a run: the initial status
followed by the status after each successive operation. -/
def statusTrace (s : CoreState) (ops : List Op) (tid : String) :
    List (Option TaskStatus) :=
  match ops with
  | [] => [statusOf s tid]
  | op :: rest => statusOf s tid :: statusTrace (step s op) rest tid

/-- Collapses consecutive repeats of a list. -/
def dedupC {α : Type} [DecidableEq α] : List α → List α
  | [] => []
  | [a] => [a]
  | a :: b :: rest => if a = b then dedupC (b :: rest) else a :: dedupC (b :: rest)

/-- The distinct status values a task is observed to take along a run, in
order of first occurrence. -/
def observed (s : CoreState) (ops : List Op) (tid : String) : List TaskStatus :=
  (dedupC (statusTrace s ops tid)).filterMap id

/-- One core step moves a task's status along at most one edge of the
lifecycle state machine: unchanged, creation to PENDING, PENDING to
PROCESSING, or PROCESSING to COMPLETED or FAILED. -/
def fwdStep (a b : Option TaskStatus) : Prop :=
  a = b ∨ (a = none ∧ b = some TaskStatus.PENDING) ∨
    (a = some TaskStatus.PENDING ∧ b = some TaskStatus.PROCESSING) ∨
    (a = some TaskStatus.PROCESSING ∧ b = some TaskStatus.COMPLETED) ∨
    (a = some TaskStatus.PROCESSING ∧ b = some TaskStatus.FAILED)

/-- The portion of the two lifecycle chains still observable from a given
current status. -/
def remFrom : Option TaskStatus → List TaskStatus × List TaskStatus
  | none =>
    ([TaskStatus.PENDING, TaskStatus.PROCESSING, TaskStatus.COMPLETED],
     [TaskStatus.PENDING, TaskStatus.PROCESSING, TaskStatus.FAILED])
  | some TaskStatus.PENDING =>
    ([TaskStatus.PENDING, TaskStatus.PROCESSING, TaskStatus.COMPLETED],
     [TaskStatus.PENDING, TaskStatus.PROCESSING, TaskStatus.FAILED])
  | some TaskStatus.PROCESSING =>
    ([TaskStatus.PROCESSING, TaskStatus.COMPLETED],
     [TaskStatus.PROCESSING, TaskStatus.FAILED])
  | some TaskStatus.COMPLETED => ([TaskStatus.COMPLETED], [TaskStatus.COMPLETED])
  | some TaskStatus.FAILED => ([TaskStatus.FAILED], [TaskStatus.FAILED])

end Core

open Models Core

/-- C4: from any state in which the key k is unseen and the generated id is
fresh, submitting (k, p1) and then (k, p2) returns the same task id both
times, the task's payload afterwards is p1 (first writer wins), and the
second submission creates no task. -/
theorem submit_idempotent (s : CoreState) (k p1 p2 id1 id2 : String)
    (n1 n2 : Nat) (hkey : s.index.lookup k = none)
    (hid : s.tasks.lookup id1 = none) :
    ∃ s1 s2,
      Core.submit s k p1 id1 n1 =
        Except.ok (id1, TaskStatus.PENDING, s1) ∧
      Core.submit s1 k p2 id2 n2 =
        Except.ok (id1, TaskStatus.PENDING, s2) ∧
      (s2.tasks.lookup id1).map Core.Task.payload = some p1 ∧
      s2.tasks = s1.tasks := by
  have h1 : Core.submit s k p1 id1 n1 = Except.ok (id1, TaskStatus.PENDING, { tasks := (id1, { task_id := id1, payload := p1, status := TaskStatus.PENDING, queued_at := some n1 }) :: s.tasks, index := (k, id1) :: s.index, queue := s.queue ++ [id1] }) := by
    simp [Core.submit, Core.lookupKey, Core.create, Core.reserve, Core.enqueue,
      hkey, hid]
  have h2 : Core.submit { tasks := (id1, { task_id := id1, payload := p1, status := TaskStatus.PENDING, queued_at := some n1 }) :: s.tasks, index := (k, id1) :: s.index, queue := s.queue ++ [id1] } k p2 id2 n2 = Except.ok (id1, TaskStatus.PENDING, { tasks := (id1, { task_id := id1, payload := p1, status := TaskStatus.PENDING, queued_at := some n1 }) :: s.tasks, index := (k, id1) :: s.index, queue := s.queue ++ [id1] }) := by
    simp [Core.submit, Core.lookupKey, List.lookup]
  exact ⟨_, _, h1, h2, by simp [List.lookup], rfl⟩

/-- C4 witness: the two-submission scenario at concrete inputs, from the
empty state. -/
theorem submit_idempotent_witness :
    ∃ s1 s2,
      Core.submit Core.CoreState.empty "abc" "hello" "T1" 0 =
        Except.ok ("T1", TaskStatus.PENDING, s1) ∧
      Core.submit s1 "abc" "world" "T2" 1 =
        Except.ok ("T1", TaskStatus.PENDING, s2) ∧
      (s2.tasks.lookup "T1").map Core.Task.payload = some "hello" ∧
      s2.tasks = s1.tasks :=
  submit_idempotent Core.CoreState.empty "abc" "hello" "world" "T1" "T2" 0 1
    rfl rfl

/-- C6 counterexample: in a state whose only task "T1" is COMPLETED, calling
the store primitive `transition` with from_status COMPLETED succeeds — it
moves the task back to PENDING instead of failing with Conflict — because
the §4.1 contract only compares the current status with `from_status`. So
not every further `transition` call on a terminal task fails. -/
theorem transition_terminal_counterexample :
    Core.transition { tasks := [("T1", { task_id := "T1", payload := "p", status := TaskStatus.COMPLETED })], index := [], queue := [] } "T1" TaskStatus.COMPLETED TaskStatus.PENDING {} =
      Except.ok { tasks := [("T1", { task_id := "T1", payload := "p", status := TaskStatus.PENDING })], index := [], queue := [] } := by
  simp [Core.transition, Core.updateTask, Core.applyFields, List.lookup]

/-- C6 (amended): once a task is COMPLETED or FAILED, every `transition`
call whose from_status differs from the terminal status it holds — in
particular every transition this core issues, since `claim` uses PENDING
and `complete`/`fail` use PROCESSING — fails with Conflict and leaves the
state, hence every field of the task, unchanged. -/
theorem transition_terminal_conflict (s : CoreState) (tid : String)
    (t : Core.Task) (from_status to_status : TaskStatus)
    (fields : Core.TransitionFields)
    (hlook : s.tasks.lookup tid = some t)
    (hterm : t.status = TaskStatus.COMPLETED ∨ t.status = TaskStatus.FAILED)
    (hne : from_status ≠ t.status) :
    Core.transition s tid from_status to_status fields =
      Except.error Core.CoreError.Conflict ∧
    (∀ now, Core.claim s tid now = (false, s)) ∧
    (∀ r now, Core.complete s tid r now =
      Except.error Core.CoreError.Conflict) ∧
    (∀ e now, Core.fail s tid e now =
      Except.error Core.CoreError.Conflict) := by
  have hstat : ∀ fs : TaskStatus, fs ≠ t.status →
      ∀ ts fl, Core.transition s tid fs ts fl =
        Except.error Core.CoreError.Conflict := by
    intro fs hfs ts fl
    simp [Core.transition, hlook]
    intro h
    exact absurd h.symm hfs
  have hPend : TaskStatus.PENDING ≠ t.status := by
    rcases hterm with h | h <;> simp [h]
  have hProc : TaskStatus.PROCESSING ≠ t.status := by
    rcases hterm with h | h <;> simp [h]
  refine ⟨hstat from_status hne _ _, ?_, ?_, ?_⟩
  · intro now
    simp [Core.claim, hstat TaskStatus.PENDING hPend]
  · intro r now
    simp [Core.complete, hstat TaskStatus.PROCESSING hProc]
  · intro e now
    simp [Core.fail, hstat TaskStatus.PROCESSING hProc]

/-- C6 witness: on a concrete COMPLETED task, a transition from PROCESSING
is refused with Conflict, as are claim, complete, and fail. -/
theorem transition_terminal_conflict_witness :
    Core.transition { tasks := [("T1", { task_id := "T1", payload := "p", status := TaskStatus.COMPLETED })], index := [], queue := [] } "T1" TaskStatus.PROCESSING TaskStatus.COMPLETED {} =
      Except.error Core.CoreError.Conflict ∧
    (∀ now, Core.claim { tasks := [("T1", { task_id := "T1", payload := "p", status := TaskStatus.COMPLETED })], index := [], queue := [] } "T1" now =
      (false, { tasks := [("T1", { task_id := "T1", payload := "p", status := TaskStatus.COMPLETED })], index := [], queue := [] })) ∧
    (∀ r now, Core.complete { tasks := [("T1", { task_id := "T1", payload := "p", status := TaskStatus.COMPLETED })], index := [], queue := [] } "T1" r now =
      Except.error Core.CoreError.Conflict) ∧
    (∀ e now, Core.fail { tasks := [("T1", { task_id := "T1", payload := "p", status := TaskStatus.COMPLETED })], index := [], queue := [] } "T1" e now =
      Except.error Core.CoreError.Conflict) :=
  transition_terminal_conflict _ "T1" { task_id := "T1", payload := "p", status := TaskStatus.COMPLETED } TaskStatus.PROCESSING TaskStatus.COMPLETED {} rfl (Or.inl rfl) (by simp)

/-- Updating a stored record makes it the one found under its id. -/
theorem lookup_updateTask_self (l : List (String × Core.Task)) (id : String)
    (t t' : Core.Task) (h : l.lookup id = some t) :
    (Core.updateTask l id t').lookup id = some t' := by
  induction l with
  | nil => simp [List.lookup] at h
  | cons kv rest ih =>
    obtain ⟨k, v⟩ := kv
    by_cases hk : k = id
    · subst hk
      simp [Core.updateTask, List.lookup]
    · have hk' : (id == k) = false := by simp [Ne.symm hk]
      rw [List.lookup] at h
      rw [hk'] at h
      simp only [Core.updateTask, if_neg hk, List.lookup, hk']
      exact ih h

/-- Updating a stored record leaves every other id's record untouched. -/
theorem lookup_updateTask_ne (l : List (String × Core.Task)) (id id' : String)
    (t' : Core.Task) (h : id' ≠ id) :
    (Core.updateTask l id t').lookup id' = l.lookup id' := by
  induction l with
  | nil => simp [Core.updateTask]
  | cons kv rest ih =>
    obtain ⟨k, v⟩ := kv
    by_cases hk : k = id
    · subst hk
      have hne : (id' == k) = false := by simp [h]
      simp [Core.updateTask, List.lookup, hne]
    · by_cases hk2 : id' = k
      · subst hk2
        simp [Core.updateTask, if_neg hk, List.lookup]
      · have hne : (id' == k) = false := by simp [hk2]
        simp [Core.updateTask, if_neg hk, List.lookup, hne, ih]

/-- A successful `transition` moves exactly the named task from
`from_status` to `to_status` and leaves every other task's status alone. -/
theorem statusOf_transition (s : CoreState) (tid0 : String)
    (fs ts : TaskStatus) (fl : Core.TransitionFields) (s' : CoreState)
    (h : Core.transition s tid0 fs ts fl = Except.ok s') (tid : String) :
    (tid = tid0 ∧ Core.statusOf s tid = some fs ∧
      Core.statusOf s' tid = some ts) ∨
    (tid ≠ tid0 ∧ Core.statusOf s' tid = Core.statusOf s tid) := by
  unfold Core.transition at h
  split at h
  · exact absurd h (by simp)
  · rename_i t hl
    split at h
    · rename_i hst
      have hs' := Except.ok.inj h
      subst hs'
      by_cases htid : tid = tid0
      · subst htid
        left
        refine ⟨rfl, ?_, ?_⟩
        · simp [Core.statusOf, hl, hst]
        · simp [Core.statusOf, lookup_updateTask_self _ _ _ _ hl,
            Core.applyFields]
      · right
        refine ⟨htid, ?_⟩
        simp [Core.statusOf, lookup_updateTask_ne _ _ _ _ htid]
    · exact absurd h (by simp)

/-- One core operation either leaves a task's status unchanged or moves it
along one edge of the lifecycle state machine. -/
theorem step_fwd (s : CoreState) (op : Core.Op) (tid : String) :
    Core.fwdStep (Core.statusOf s tid) (Core.statusOf (Core.step s op) tid) := by
  cases op with
  | submit k p nid n =>
    cases hk : Core.lookupKey s k with
    | some tid0 =>
      cases ht : s.tasks.lookup tid0 with
      | some t =>
        have hstep : Core.step s (Core.Op.submit k p nid n) = s := by
          simp [Core.step, Core.submit, hk, ht]
        rw [hstep]
        exact Or.inl rfl
      | none =>
        have hstep : Core.step s (Core.Op.submit k p nid n) = s := by
          simp [Core.step, Core.submit, hk, ht]
        rw [hstep]
        exact Or.inl rfl
    | none =>
      have hk' : s.index.lookup k = none := hk
      cases hn : s.tasks.lookup nid with
      | some t =>
        have hstep : Core.step s (Core.Op.submit k p nid n) = s := by
          simp [Core.step, Core.submit, Core.create, hk, hn]
        rw [hstep]
        exact Or.inl rfl
      | none =>
        have hstep : Core.step s (Core.Op.submit k p nid n) = { tasks := (nid, { task_id := nid, payload := p, status := TaskStatus.PENDING, queued_at := some n }) :: s.tasks, index := (k, nid) :: s.index, queue := s.queue ++ [nid] } := by
          simp [Core.step, Core.submit, Core.create, Core.reserve,
            Core.enqueue, Core.lookupKey, hk', hn]
        rw [hstep]
        by_cases htid : tid = nid
        · subst htid
          refine Or.inr (Or.inl ⟨?_, ?_⟩)
          · simp [Core.statusOf, hn]
          · simp [Core.statusOf, List.lookup]
        · have hb : (tid == nid) = false := by simp [htid]
          refine Or.inl ?_
          simp [Core.statusOf, List.lookup, hb]
  | claim tid0 now =>
    cases h : Core.transition s tid0 TaskStatus.PENDING TaskStatus.PROCESSING
        { started_at := some now } with
    | error e =>
      have hstep : Core.step s (Core.Op.claim tid0 now) = s := by
        simp [Core.step, Core.claim, h]
      rw [hstep]
      exact Or.inl rfl
    | ok s' =>
      have hstep : Core.step s (Core.Op.claim tid0 now) = s' := by
        simp [Core.step, Core.claim, h]
      rw [hstep]
      rcases statusOf_transition s tid0 _ _ _ s' h tid with ⟨_, h1, h2⟩ | ⟨_, h2⟩
      · exact Or.inr (Or.inr (Or.inl ⟨h1, h2⟩))
      · exact Or.inl h2.symm
  | complete tid0 r now =>
    cases h : Core.complete s tid0 r now with
    | error e =>
      have hstep : Core.step s (Core.Op.complete tid0 r now) = s := by
        simp [Core.step, h]
      rw [hstep]
      exact Or.inl rfl
    | ok s' =>
      have hstep : Core.step s (Core.Op.complete tid0 r now) = s' := by
        simp [Core.step, h]
      rw [hstep]
      rcases statusOf_transition s tid0 _ _ _ s' h tid with ⟨_, h1, h2⟩ | ⟨_, h2⟩
      · exact Or.inr (Or.inr (Or.inr (Or.inl ⟨h1, h2⟩)))
      · exact Or.inl h2.symm
  | fail tid0 e now =>
    cases h : Core.fail s tid0 e now with
    | error e2 =>
      have hstep : Core.step s (Core.Op.fail tid0 e now) = s := by
        simp [Core.step, h]
      rw [hstep]
      exact Or.inl rfl
    | ok s' =>
      have hstep : Core.step s (Core.Op.fail tid0 e now) = s' := by
        simp [Core.step, h]
      rw [hstep]
      rcases statusOf_transition s tid0 _ _ _ s' h tid with ⟨_, h1, h2⟩ | ⟨_, h2⟩
      · exact Or.inr (Or.inr (Or.inr (Or.inr ⟨h1, h2⟩)))
      · exact Or.inl h2.symm

/-- The first status in a run's trace is the task's initial status. -/
theorem statusTrace_head (s : CoreState) (ops : List Core.Op) (tid : String) :
    (Core.statusTrace s ops tid).head? = some (Core.statusOf s tid) := by
  cases ops <;> rfl

/-- Consecutive statuses along any run are related by `fwdStep`. -/
theorem chain_statusTrace (tid : String) : ∀ (ops : List Core.Op)
    (s : CoreState), List.Chain' Core.fwdStep (Core.statusTrace s ops tid) := by
  intro ops
  induction ops with
  | nil =>
    intro s
    simp [Core.statusTrace]
  | cons op rest ih =>
    intro s
    show List.Chain' Core.fwdStep
      (Core.statusOf s tid :: Core.statusTrace (Core.step s op) rest tid)
    refine List.chain'_cons'.mpr ⟨?_, ih (Core.step s op)⟩
    intro b hb
    rw [statusTrace_head] at hb
    rw [Option.mem_some_iff] at hb
    subst hb
    exact step_fwd s op tid

/-- Along a `fwdStep` chain starting at a given status, the deduplicated
observed statuses form a subsequence of what remains of one of the two
lifecycle chains. -/
theorem dedupC_chain_sublist : ∀ (l : List (Option TaskStatus))
    (cur : Option TaskStatus), List.Chain' Core.fwdStep (cur :: l) →
    ((Core.dedupC (cur :: l)).filterMap id).Sublist (Core.remFrom cur).1 ∨
    ((Core.dedupC (cur :: l)).filterMap id).Sublist (Core.remFrom cur).2 := by
  intro l
  induction l with
  | nil =>
    intro cur _
    rcases cur with _ | st
    · left
      simp [Core.dedupC, Core.remFrom]
    · cases st with
      | PENDING => left; decide
      | PROCESSING => left; decide
      | COMPLETED => left; decide
      | FAILED => right; decide
  | cons b rest ih =>
    intro cur hch
    have hfw : Core.fwdStep cur b := (List.chain'_cons.mp hch).1
    have hch' : List.Chain' Core.fwdStep (b :: rest) :=
      (List.chain'_cons.mp hch).2
    by_cases he : cur = b
    · rw [show Core.dedupC (cur :: b :: rest) = Core.dedupC (b :: rest) from
        by simp [Core.dedupC, he]]
      rw [he]
      exact ih b hch'
    · have hd : Core.dedupC (cur :: b :: rest) =
          cur :: Core.dedupC (b :: rest) := by simp [Core.dedupC, he]
      rw [hd]
      rcases hfw with he' | ⟨h1, h2⟩ | ⟨h1, h2⟩ | ⟨h1, h2⟩ | ⟨h1, h2⟩
      · exact absurd he' he
      · subst h1; subst h2
        rcases ih _ hch' with h | h
        · exact Or.inl h
        · exact Or.inr h
      · subst h1; subst h2
        rcases ih _ hch' with h | h
        · exact Or.inl (List.Sublist.cons₂ _ h)
        · exact Or.inr (List.Sublist.cons₂ _ h)
      · subst h1; subst h2
        rcases ih _ hch' with h | h
        · exact Or.inl (List.Sublist.cons₂ _ h)
        · exact Or.inl (List.Sublist.cons₂ _ h)
      · subst h1; subst h2
        rcases ih _ hch' with h | h
        · exact Or.inr (List.Sublist.cons₂ _ h)
        · exact Or.inr (List.Sublist.cons₂ _ h)

/-- What remains of a lifecycle chain embeds into the corresponding full
chain. -/
theorem remFrom_glue (cur : Option TaskStatus) (l : List TaskStatus)
    (h : l.Sublist (Core.remFrom cur).1 ∨ l.Sublist (Core.remFrom cur).2) :
    l.Sublist [TaskStatus.PENDING, TaskStatus.PROCESSING,
      TaskStatus.COMPLETED] ∨
    l.Sublist [TaskStatus.PENDING, TaskStatus.PROCESSING,
      TaskStatus.FAILED] := by
  rcases cur with _ | st
  · rcases h with h | h
    · exact Or.inl (h.trans (by decide))
    · exact Or.inr (h.trans (by decide))
  · cases st with
    | PENDING =>
      rcases h with h | h
      · exact Or.inl (h.trans (by decide))
      · exact Or.inr (h.trans (by decide))
    | PROCESSING =>
      rcases h with h | h
      · exact Or.inl (h.trans (by decide))
      · exact Or.inr (h.trans (by decide))
    | COMPLETED =>
      rcases h with h | h
      · exact Or.inl (h.trans (by decide))
      · exact Or.inl (h.trans (by decide))
    | FAILED =>
      rcases h with h | h
      · exact Or.inr (h.trans (by decide))
      · exact Or.inr (h.trans (by decide))

/-- C5: along any run of the core's operations from any state, the distinct
status values a task is observed to take form a subsequence of PENDING,
PROCESSING, COMPLETED or of PENDING, PROCESSING, FAILED — the status never
regresses and no other ordering is observable. -/
theorem status_forward_only (s : CoreState) (ops : List Core.Op)
    (tid : String) :
    (Core.observed s ops tid).Sublist [TaskStatus.PENDING,
      TaskStatus.PROCESSING, TaskStatus.COMPLETED] ∨
    (Core.observed s ops tid).Sublist [TaskStatus.PENDING,
      TaskStatus.PROCESSING, TaskStatus.FAILED] := by
  have hch := chain_statusTrace tid ops s
  have hcons : Core.statusTrace s ops tid =
      Core.statusOf s tid :: (Core.statusTrace s ops tid).tail := by
    cases ops <;> rfl
  unfold Core.observed
  rw [hcons] at hch ⊢
  exact remFrom_glue _ _ (dedupC_chain_sublist _ _ hch)
